import Mathlib

/-!
# Task analyzer front end: derivation layer of `src/frontend/script.js`

A shallow embedding of the rendering functions that derive data from the
analyzed tasks returned by the scoring service:

* `priorityBadge`          (script.js 127-131)
* `renderResults`          (script.js 133-180, the per-card score and badge)
* `renderSummary`          (script.js 182-202)
* `renderDependencyGraph`  (script.js 204-221, the construction of `dependents`)
* `renderEisenhowerMatrix` (script.js 263-297)

Conventions of the embedding.

* Instants are integer milliseconds (the time value of a JavaScript `Date`).
  `new Date(s)` is the engine's parser; it is a parameter `parseDate`, and
  `none` stands for an Invalid Date, whose time value is NaN.  The ambient
  clock `new Date()` is the parameter `today`.
* A number that may be NaN is an `Option`, `none` being NaN; every comparison
  with NaN is false.
* A finite score is a rational number (every finite double is one, and the
  comparisons with 75 and 50 are exact); `Score.undefined` is a missing
  `score` property.
* A thrown `TypeError` is `Except.error JSError.typeError`.
* DOM nodes are replaced by the data they are computed from.
-/

namespace TaskAnalyzer

/-! ## Data model -/

/-- The `score` property of an analyzed task: a number, or missing. -/
inductive Score where
  | num (q : ℚ)
  | undefined
  deriving DecidableEq

/-- An element of the array returned by the scoring service. `dependencies`
is `none` when the property is missing (the code reads it through
`t.dependencies || []`). -/
structure AnalyzedTask where
  id : String
  title : String
  due_date : String
  importance : Int
  dependencies : Option (List String)
  score : Score
  deriving DecidableEq

/-- The only exception the modelled code can raise. -/
inductive JSError where
  | typeError
  deriving DecidableEq

/-! ## priorityBadge and renderResults -/

/-- The object literal returned by `priorityBadge`. -/
structure Badge where
  label : String
  className : String
  deriving DecidableEq

/-- JavaScript `score >= c` for a numeric constant `c`: the operand is
converted with ToNumber, `undefined` becomes NaN and the comparison is false. -/
def Score.ge (s : Score) (c : ℚ) : Bool :=
  match s with
  | .num q => decide (c ≤ q)
  | .undefined => false

/-- script.js 127-131. -/
def priorityBadge (score : Score) : Badge :=
  if score.ge 75 then { label := "High", className := "badge badge-high" }
  else if score.ge 50 then { label := "Medium", className := "badge badge-medium" }
  else { label := "Low", className := "badge badge-low" }

/-- The text `x.toFixed(digits)`, kept as the number and the digit count it is
printed with. -/
structure FixedText where
  value : ℚ
  digits : Nat
  deriving DecidableEq

/-- JavaScript `t.score.toFixed(digits)`: reading a property of `undefined`
throws a TypeError. -/
def Score.toFixed (s : Score) (digits : Nat) : Except JSError FixedText :=
  match s with
  | .num q => .ok { value := q, digits := digits }
  | .undefined => .error .typeError

/-- The score element of a result card (script.js 153-157). -/
structure ScoreEl where
  text : FixedText
  badge : Badge
  deriving DecidableEq

/-- The body of the `forEach` of `renderResults` restricted to the score
element: `priorityBadge(t.score)` is evaluated first, then
`t.score.toFixed(2)`. -/
def renderResultsCard (t : AnalyzedTask) : Except JSError ScoreEl :=
  let badgeInfo := priorityBadge t.score
  match t.score.toFixed 2 with
  | .ok txt => .ok { text := txt, badge := badgeInfo }
  | .error e => .error e

/-- script.js 133-180: the score elements of the cards, in input order; the
first failing card aborts the loop. -/
def renderResults : List AnalyzedTask → Except JSError (List ScoreEl)
  | [] => .ok []
  | t :: ts =>
    match renderResultsCard t with
    | .error e => .error e
    | .ok c =>
      match renderResults ts with
      | .error e => .error e
      | .ok cs => .ok (c :: cs)

/-! ## Day offsets -/

/-- The constant `1000 * 60 * 60 * 24`. -/
def msPerDay : Int := 1000 * 60 * 60 * 24

/-- `Math.floor((d - today) / (1000 * 60 * 60 * 24))` where `d` is the time
value of `new Date(t.due_date)`. `none` is NaN. For a positive divisor the
integer division of `Int` is the floor of the quotient
(see `diffDays_eq_floor`). The code computes in doubles: the difference of
two time values is exact below 2^53 in absolute value, and in that range the
rounded quotient has the same floor as the exact one. -/
def diffDays (d : Option Int) (today : Int) : Option Int :=
  match d with
  | some D => some ((D - today) / msPerDay)
  | none => none

/-- JavaScript `x < c`, false on NaN. -/
def jsLt (x : Option Int) (c : Int) : Bool :=
  match x with
  | some v => decide (v < c)
  | none => false

/-- JavaScript `x <= c`, false on NaN. -/
def jsLe (x : Option Int) (c : Int) : Bool :=
  match x with
  | some v => decide (v ≤ c)
  | none => false

/-- JavaScript `x === c`, false on NaN. -/
def jsStrictEq (x : Option Int) (c : Int) : Bool :=
  match x with
  | some v => decide (v = c)
  | none => false

/-! ## renderSummary -/

/-- The three counters of `renderSummary`. -/
structure Tally where
  overdue : Nat
  dueToday : Nat
  upcoming : Nat
  deriving DecidableEq

/-- The body of the `forEach` of `renderSummary` (script.js 193-199). -/
def summaryStep (parseDate : String → Option Int) (today : Int)
    (c : Tally) (t : AnalyzedTask) : Tally :=
  let d := parseDate t.due_date
  let diff := diffDays d today
  if jsLt diff 0 then { c with overdue := c.overdue + 1 }
  else if jsStrictEq diff 0 then { c with dueToday := c.dueToday + 1 }
  else { c with upcoming := c.upcoming + 1 }

/-- The content of the summary element after `renderSummary`. -/
inductive SummaryView where
  | cleared
  | counts (c : Tally)
  deriving DecidableEq

/-- The counters after the `forEach` of `renderSummary`, all three starting
at zero (script.js 189-199). -/
def summaryTally (parseDate : String → Option Int) (today : Int)
    (items : List AnalyzedTask) : Tally :=
  items.foldl (summaryStep parseDate today) ⟨0, 0, 0⟩

/-- script.js 182-202. -/
def renderSummary (parseDate : String → Option Int) (today : Int)
    (items : List AnalyzedTask) : SummaryView :=
  if items.length = 0 then .cleared
  else .counts (summaryTally parseDate today items)

/-- A test on a day offset that fails on NaN: the reading of `diffDays < 0`,
`diffDays = 0`, `diffDays > 0`, `diffDays > 2` in the statements below. -/
def offsetIs (p : Int → Bool) (x : Option Int) : Bool :=
  match x with
  | some v => p v
  | none => false

/-- The day offset of a task, `none` when its due date does not parse. -/
def offsetOf (parseDate : String → Option Int) (today : Int) (t : AnalyzedTask) : Option Int :=
  diffDays (parseDate t.due_date) today

/-- A date parser for the examples: the three ISO dates used below, at UTC
midnight; any other string is an Invalid Date. -/
def sampleParse (s : String) : Option Int :=
  if s = "2024-01-01" then some 1704067200000
  else if s = "2024-01-05" then some 1704412800000
  else if s = "2024-01-10" then some 1704844800000
  else none

/-! ## renderEisenhowerMatrix -/

/-- The four `.matrix-list` elements; an `li` is represented by the task it
was created for (its text is `title (score s)` with `s = t.score.toFixed(1)`). -/
structure Matrix where
  q1 : List AnalyzedTask
  q2 : List AnalyzedTask
  q3 : List AnalyzedTask
  q4 : List AnalyzedTask
  deriving DecidableEq

/-- The test `urgent` of script.js 284-286. -/
def isUrgent (parseDate : String → Option Int) (today : Int) (t : AnalyzedTask) : Bool :=
  jsLe (diffDays (parseDate t.due_date) today) 2

/-- The test `important` of script.js 287. -/
def isImportant (t : AnalyzedTask) : Bool :=
  decide (7 ≤ t.importance)

/-- The body of the `forEach` of `renderEisenhowerMatrix` (script.js 283-296).
Building the text of the `li` evaluates `t.score.toFixed(1)`, which throws
when the score is missing, before the `li` is appended. -/
def matrixStep (parseDate : String → Option Int) (today : Int)
    (m : Matrix) (t : AnalyzedTask) : Except JSError Matrix :=
  let urgent := isUrgent parseDate today t
  let important := isImportant t
  match t.score.toFixed 1 with
  | .error e => .error e
  | .ok _ =>
    if urgent && important then .ok { m with q1 := m.q1 ++ [t] }
    else if urgent && !important then .ok { m with q2 := m.q2 ++ [t] }
    else if !urgent && important then .ok { m with q3 := m.q3 ++ [t] }
    else .ok { m with q4 := m.q4 ++ [t] }

/-- The loop of `renderEisenhowerMatrix` from a given state of the lists. An
exception ends the loop; the result then only records the exception. -/
def matrixLoop (parseDate : String → Option Int) (today : Int) :
    Matrix → List AnalyzedTask → Except JSError Matrix
  | m, [] => .ok m
  | m, t :: ts =>
    match matrixStep parseDate today m t with
    | .error e => .error e
    | .ok m2 => matrixLoop parseDate today m2 ts

/-- script.js 263-297: the four lists are emptied first; an empty input
returns at once. -/
def renderEisenhowerMatrix (parseDate : String → Option Int) (today : Int)
    (items : List AnalyzedTask) : Except JSError Matrix :=
  if items.length = 0 then .ok ⟨[], [], [], []⟩
  else matrixLoop parseDate today ⟨[], [], [], []⟩ items

/-! ## renderDependencyGraph

`dependents` is created by the object literal `{}`: a plain object whose
prototype is `Object.prototype`. Reading `dependents[k]` follows the prototype
chain, the assignment `dependents["__proto__"] = v` runs the inherited setter
(it replaces the prototype and creates no own property), and every other
assignment creates or overwrites an own property. -/

/-- Property names of `Object.prototype` (ECMAScript 20.1.3 and B.2.2). -/
def objectPrototypeNames : List String :=
  ["constructor", "hasOwnProperty", "isPrototypeOf", "propertyIsEnumerable",
   "toLocaleString", "toString", "valueOf", "__proto__",
   "__defineGetter__", "__defineSetter__", "__lookupGetter__", "__lookupSetter__"]

/-- Property names of `Array.prototype` (ECMAScript 23.1.3), reachable only
after the prototype of `dependents` has been replaced by an array. -/
def arrayPrototypeNames : List String :=
  ["at", "concat", "constructor", "copyWithin", "entries", "every", "fill", "filter",
   "find", "findIndex", "findLast", "findLastIndex", "flat", "flatMap", "forEach",
   "includes", "indexOf", "join", "keys", "lastIndexOf", "map", "pop", "push",
   "reduce", "reduceRight", "reverse", "shift", "slice", "some", "sort", "splice",
   "toLocaleString", "toReversed", "toSorted", "toSpliced", "toString", "unshift",
   "values", "with"]

/-- The prototype of `dependents`: `Object.prototype`, or an array that a
task whose id is `__proto__` installed. -/
inductive Proto where
  | objectPrototype
  | array (elems : List String)
  deriving DecidableEq

/-- The object `dependents`: own properties in insertion order, and the
prototype. -/
structure DepObject where
  own : List (String × List String)
  proto : Proto
  deriving DecidableEq

/-- What `dependents[key]` evaluates to. -/
inductive Looked where
  | ownArray (a : List String)
  | protoArray (a : List String)
  | str (s : String)
  | num (n : Nat)
  | builtin
  | undefined
  deriving DecidableEq

/-- ToBoolean of a looked-up value: objects and functions are truthy, a string
unless empty, a number unless zero. -/
def Looked.truthy : Looked → Bool
  | .ownArray _ => true
  | .protoArray _ => true
  | .str s => decide (s ≠ "")
  | .num n => decide (n ≠ 0)
  | .builtin => true
  | .undefined => false

/-- Create or overwrite an own property, keeping its position. -/
def ownSet (k : String) (v : List String) :
    List (String × List String) → List (String × List String)
  | [] => [(k, v)]
  | (k2, v2) :: rest => if k2 = k then (k2, v) :: rest else (k2, v2) :: ownSet k v rest

/-- Own property lookup. -/
def ownGet (k : String) : List (String × List String) → Option (List String)
  | [] => none
  | (k2, v2) :: rest => if k2 = k then some v2 else ownGet k rest

/-- The read `dependents[key]`: own property, then the prototype chain. -/
def DepObject.get (o : DepObject) (key : String) : Looked :=
  match ownGet key o.own with
  | some a => .ownArray a
  | none =>
    match o.proto with
    | .objectPrototype =>
      if key ∈ objectPrototypeNames then .builtin else .undefined
    | .array e =>
      if key = "__proto__" then .protoArray e
      else
        match e.enum.find? (fun p => toString p.1 == key) with
        | some p => .str p.2
        | none =>
          if key = "length" then .num e.length
          else if key ∈ arrayPrototypeNames ∨ key ∈ objectPrototypeNames then .builtin
          else .undefined

/-- The assignment `dependents[key] = v`. -/
def DepObject.assign (o : DepObject) (key : String) (v : List String) : DepObject :=
  if key = "__proto__" then { o with proto := .array v }
  else { o with own := ownSet key v o.own }

/-- The call `dependents[key].push(x)`: only an array has `push`. -/
def DepObject.push (o : DepObject) (key : String) (x : String) : Except JSError DepObject :=
  match o.get key with
  | .ownArray a => .ok { o with own := ownSet key (a ++ [x]) o.own }
  | .protoArray e => .ok { o with proto := .array (e ++ [x]) }
  | _ => .error .typeError

/-- `Object.keys(dependents)` as a collection: the own property names. (The
engine lists integer-like names first; the order of the keys is not modelled.) -/
def DepObject.keys (o : DepObject) : List String :=
  o.own.map Prod.fst

/-- The body of the first `forEach` (script.js 211-214), `dependents` part. -/
def initStep (o : DepObject) (t : AnalyzedTask) : DepObject :=
  o.assign t.id []

/-- The body of the inner `forEach` (script.js 218-219). -/
def linkStep (id : String) (o : DepObject) (depId : String) : Except JSError DepObject :=
  let o1 := if !(o.get depId).truthy then o.assign depId [] else o
  o1.push depId id

/-- The inner `forEach` over `t.dependencies || []` (script.js 217-220). -/
def linkLoop (id : String) : DepObject → List String → Except JSError DepObject
  | o, [] => .ok o
  | o, d :: ds =>
    match linkStep id o d with
    | .error e => .error e
    | .ok o2 => linkLoop id o2 ds

/-- The second `forEach` over the items (script.js 216-221). -/
def taskLoop : DepObject → List AnalyzedTask → Except JSError DepObject
  | o, [] => .ok o
  | o, t :: ts =>
    match linkLoop t.id o (t.dependencies.getD []) with
    | .error e => .error e
    | .ok o2 => taskLoop o2 ts

/-- script.js 208-221: the object `dependents` after both loops. The object
`idToTitle` filled by the first loop is left out: it stores strings, is never
read before line 233, and storing into it cannot throw. -/
def buildDependents (items : List AnalyzedTask) : Except JSError DepObject :=
  taskLoop (items.foldl initStep ⟨[], .objectPrototype⟩) items

/-- script.js 204-221: `none` when the function returns at the guard on an
empty input, otherwise the object `dependents` the lists are rendered from. -/
def renderDependencyGraph (items : List AnalyzedTask) : Except JSError (Option DepObject) :=
  if items.length = 0 then .ok none
  else
    match buildDependents items with
    | .error e => .error e
    | .ok o => .ok (some o)

/-- The read `dependents[d]` on the result, when it is an array. -/
def dependentsAt (r : Except JSError (Option DepObject)) (d : String) : Option (List String) :=
  match r with
  | .ok (some o) =>
    match o.get d with
    | .ownArray a => some a
    | .protoArray a => some a
    | _ => none
  | _ => none

/-- The dependencies of a task as the code reads them: `t.dependencies || []`. -/
def depsOf (t : AnalyzedTask) : List String :=
  t.dependencies.getD []

/-- The ids pushed for the key `d`, in the order of the two nested loops:
each task contributes its id once per occurrence of `d` in its dependencies. -/
def declarations (items : List AnalyzedTask) (d : String) : List String :=
  items.flatMap (fun t => List.replicate ((depsOf t).count d) t.id)

/-! # Theorems -/

/-! ## Day offsets -/

/-- The integer division used by `diffDays` is the floor of the exact
quotient. -/
theorem diffDays_eq_floor (D today : Int) :
    diffDays (some D) today = some ⌊((D - today : Int) : ℚ) / (86400000 : ℚ)⌋ := by
  have h : ((D - today : Int) : ℚ) / (86400000 : ℚ)
      = ((D - today : Int) : ℚ) / ((86400000 : ℕ) : ℚ) := by norm_num
  rw [h, Rat.floor_intCast_div_natCast]
  simp [diffDays, msPerDay]

/-! ## priorityBadge -/

/-- C4: for every finite score `q`, without clamping, `priorityBadge` answers
High exactly when `q ≥ 75`, Medium exactly when `50 ≤ q < 75` and Low exactly
when `q < 50`; 75 is High, 74.999 is Medium, 50 is Medium, 49.999 is Low. -/
theorem priorityBadge_tiers (q : ℚ) :
    ((priorityBadge (.num q)).label = "High" ↔ 75 ≤ q) ∧
    ((priorityBadge (.num q)).label = "Medium" ↔ 50 ≤ q ∧ q < 75) ∧
    ((priorityBadge (.num q)).label = "Low" ↔ q < 50) ∧
    (priorityBadge (.num 75)).label = "High" ∧
    (priorityBadge (.num (74999 / 1000))).label = "Medium" ∧
    (priorityBadge (.num 50)).label = "Medium" ∧
    (priorityBadge (.num (49999 / 1000))).label = "Low" ∧
    (priorityBadge (.num (-3))).label = "Low" ∧
    (priorityBadge (.num 1000)).label = "High" := by
  have key : ∀ r : ℚ, (priorityBadge (.num r)).label =
      if 75 ≤ r then "High" else if 50 ≤ r then "Medium" else "Low" := by
    intro r
    unfold priorityBadge Score.ge
    by_cases h1 : 75 ≤ r
    · simp [h1]
    · by_cases h2 : 50 ≤ r
      · simp [h1, h2]
      · simp [h1, h2]
  refine ⟨?_, ?_, ?_, ?_, ?_, ?_, ?_, ?_, ?_⟩
  · rw [key]
    by_cases h1 : 75 ≤ q
    · simp [h1]
    · by_cases h2 : 50 ≤ q
      · simp [h1, h2]
      · simp [h1, h2]
  · rw [key]
    by_cases h1 : 75 ≤ q
    · simp [h1]
    · by_cases h2 : 50 ≤ q
      · simp [h1, h2]
        linarith
      · simp [h1, h2]
  · rw [key]
    by_cases h1 : 75 ≤ q
    · simp [h1]
      linarith
    · by_cases h2 : 50 ≤ q
      · simp [h1, h2]
      · simp [h1, h2]
        linarith
  all_goals (rw [key]; norm_num)

/-- C8, the behaviour the claim misses: a missing score is classified Low,
one of the three tiers. -/
theorem priorityBadge_undefined_is_a_tier :
    (priorityBadge Score.undefined).label ∈ ["High", "Medium", "Low"] := by
  decide

/-- C8 as amended: for every analyzed task whose score is missing,
`priorityBadge` does not fail and returns the Low badge. -/
theorem priorityBadge_missing_score (t : AnalyzedTask) (h : t.score = Score.undefined) :
    priorityBadge t.score = { label := "Low", className := "badge badge-low" } := by
  rw [h]
  rfl

theorem priorityBadge_missing_score_witness :
    (⟨"1", "a", "2024-01-01", 5, none, Score.undefined⟩ : AnalyzedTask).score = Score.undefined ∧
    priorityBadge (⟨"1", "a", "2024-01-01", 5, none, Score.undefined⟩ : AnalyzedTask).score
      = { label := "Low", className := "badge badge-low" } :=
  ⟨rfl, priorityBadge_missing_score ⟨"1", "a", "2024-01-01", 5, none, Score.undefined⟩ rfl⟩

/-- After the badge is computed, the card of a task without a score throws at
`t.score.toFixed(2)`, and `renderResults` with it. -/
theorem renderResults_missing_score (pre post : List AnalyzedTask) (t : AnalyzedTask)
    (hpre : ∀ u ∈ pre, ∃ q, u.score = Score.num q) (h : t.score = Score.undefined) :
    renderResults (pre ++ t :: post) = .error .typeError := by
  induction pre with
  | nil =>
    simp [renderResults, renderResultsCard, h, Score.toFixed]
  | cons u us ih =>
    obtain ⟨q, hq⟩ := hpre u (by simp)
    have ih2 := ih (fun v hv => hpre v (by simp [hv]))
    simp [renderResults, renderResultsCard, hq, Score.toFixed, ih2]

/-! ## renderSummary -/

/-- The loop of `renderSummary` adds, to each counter, the number of tasks
that take the corresponding branch; the last branch is taken by every task
that is neither before nor on the reference day, unparseable dates included. -/
theorem foldl_summaryStep (parseDate : String → Option Int) (today : Int)
    (items : List AnalyzedTask) (c : Tally) :
    items.foldl (summaryStep parseDate today) c =
      { overdue := c.overdue +
          items.countP (fun t => offsetIs (fun k => decide (k < 0)) (offsetOf parseDate today t)),
        dueToday := c.dueToday +
          items.countP (fun t => offsetIs (fun k => decide (k = 0)) (offsetOf parseDate today t)),
        upcoming := c.upcoming +
          items.countP (fun t => (offsetOf parseDate today t).isNone ||
            offsetIs (fun k => decide (0 < k)) (offsetOf parseDate today t)) } := by
  induction items generalizing c with
  | nil => simp
  | cons t ts ih =>
    rw [List.foldl_cons, ih]
    cases hd : parseDate t.due_date with
    | none =>
      simp [summaryStep, offsetOf, offsetIs, diffDays, jsLt, jsStrictEq, hd, List.countP_cons]
      omega
    | some D =>
      rcases lt_trichotomy ((D - today) / msPerDay) 0 with h | h | h
      · have h2 : ¬ ((D - today) / msPerDay = 0) := by omega
        have h3 : ¬ (0 < (D - today) / msPerDay) := by omega
        simp [summaryStep, offsetOf, offsetIs, diffDays, jsLt, jsStrictEq, hd,
          List.countP_cons, h, h2, h3]
        omega
      · have h1 : ¬ ((D - today) / msPerDay < 0) := by omega
        have h3 : ¬ (0 < (D - today) / msPerDay) := by omega
        simp [summaryStep, offsetOf, offsetIs, diffDays, jsLt, jsStrictEq, hd,
          List.countP_cons, h, h1, h3]
        omega
      · have h1 : ¬ ((D - today) / msPerDay < 0) := by omega
        have h2 : ¬ ((D - today) / msPerDay = 0) := by omega
        simp [summaryStep, offsetOf, offsetIs, diffDays, jsLt, jsStrictEq, hd,
          List.countP_cons, h, h1, h2]
        omega

/-- With every due date valid, each task takes exactly one of the three
tests on its day offset. -/
theorem countP_offsets_sum (parseDate : String → Option Int) (today : Int)
    (items : List AnalyzedTask) (hvalid : ∀ t ∈ items, ∃ D, parseDate t.due_date = some D) :
    items.countP (fun t => offsetIs (fun k => decide (k < 0)) (offsetOf parseDate today t)) +
    items.countP (fun t => offsetIs (fun k => decide (k = 0)) (offsetOf parseDate today t)) +
    items.countP (fun t => offsetIs (fun k => decide (0 < k)) (offsetOf parseDate today t))
      = items.length := by
  induction items with
  | nil => simp
  | cons t ts ih =>
    have ih2 := ih (fun u hu => hvalid u (by simp [hu]))
    obtain ⟨D, hD⟩ := hvalid t (by simp)
    have e : offsetOf parseDate today t = some ((D - today) / msPerDay) := by
      simp [offsetOf, diffDays, hD]
    have e1 : offsetIs (fun k => decide (k < 0)) (offsetOf parseDate today t)
        = decide ((D - today) / msPerDay < 0) := by rw [e]; rfl
    have e2 : offsetIs (fun k => decide (k = 0)) (offsetOf parseDate today t)
        = decide ((D - today) / msPerDay = 0) := by rw [e]; rfl
    have e3 : offsetIs (fun k => decide (0 < k)) (offsetOf parseDate today t)
        = decide (0 < (D - today) / msPerDay) := by rw [e]; rfl
    rw [List.countP_cons, List.countP_cons, List.countP_cons, List.length_cons, e1, e2, e3]
    rcases lt_trichotomy ((D - today) / msPerDay) 0 with h | h | h
    · have h2 : ¬ ((D - today) / msPerDay = 0) := by omega
      have h3 : ¬ (0 < (D - today) / msPerDay) := by omega
      simp [h, h2, h3]
      omega
    · have h1 : ¬ ((D - today) / msPerDay < 0) := by omega
      have h3 : ¬ (0 < (D - today) / msPerDay) := by omega
      simp [h]
      omega
    · have h1 : ¬ ((D - today) / msPerDay < 0) := by omega
      have h2 : ¬ ((D - today) / msPerDay = 0) := by omega
      simp [h, h1, h2]
      omega

/-- C6: for a non-empty sequence of tasks whose due dates all parse,
`renderSummary` reports overdue = number of tasks with diffDays < 0,
dueToday = number with diffDays = 0, upcoming = number with diffDays > 0,
where diffDays is the floor of (due - now) / one day; the three counts add up
to the number of tasks. -/
theorem renderSummary_counts (parseDate : String → Option Int) (today : Int)
    (items : List AnalyzedTask) (hne : items ≠ [])
    (hvalid : ∀ t ∈ items, ∃ D, parseDate t.due_date = some D) :
    renderSummary parseDate today items = SummaryView.counts
      { overdue :=
          items.countP (fun t => offsetIs (fun k => decide (k < 0)) (offsetOf parseDate today t)),
        dueToday :=
          items.countP (fun t => offsetIs (fun k => decide (k = 0)) (offsetOf parseDate today t)),
        upcoming :=
          items.countP (fun t => offsetIs (fun k => decide (0 < k)) (offsetOf parseDate today t)) } ∧
    items.countP (fun t => offsetIs (fun k => decide (k < 0)) (offsetOf parseDate today t)) +
    items.countP (fun t => offsetIs (fun k => decide (k = 0)) (offsetOf parseDate today t)) +
    items.countP (fun t => offsetIs (fun k => decide (0 < k)) (offsetOf parseDate today t))
      = items.length ∧
    (∀ t ∈ items, ∀ D, parseDate t.due_date = some D →
      offsetOf parseDate today t = some ⌊((D - today : Int) : ℚ) / (86400000 : ℚ)⌋) := by
  refine ⟨?_, countP_offsets_sum parseDate today items hvalid, ?_⟩
  · have hlen : ¬ (items.length = 0) := by
      intro h
      exact hne (List.length_eq_zero.mp h)
    have hup : items.countP (fun t => (offsetOf parseDate today t).isNone ||
          offsetIs (fun k => decide (0 < k)) (offsetOf parseDate today t))
        = items.countP (fun t => offsetIs (fun k => decide (0 < k)) (offsetOf parseDate today t)) := by
      apply List.countP_congr
      intro t ht
      obtain ⟨D, hD⟩ := hvalid t ht
      simp [offsetOf, diffDays, hD]
    simp only [renderSummary, hlen, if_false, summaryTally, foldl_summaryStep, hup, Nat.zero_add]
  · intro t _ D hD
    rw [offsetOf, hD, diffDays_eq_floor]

theorem renderSummary_counts_witness :
    renderSummary sampleParse 1704412800000
      [⟨"1", "a", "2024-01-01", 8, none, Score.num 80⟩,
       ⟨"2", "b", "2024-01-10", 3, some ["1"], Score.num 40⟩,
       ⟨"3", "c", "2024-01-05", 5, some [], Score.num 60⟩]
      = SummaryView.counts { overdue := 1, dueToday := 1, upcoming := 1 } := by
  have h := (renderSummary_counts sampleParse 1704412800000
      [⟨"1", "a", "2024-01-01", 8, none, Score.num 80⟩,
       ⟨"2", "b", "2024-01-10", 3, some ["1"], Score.num 40⟩,
       ⟨"3", "c", "2024-01-05", 5, some [], Score.num 60⟩]
      (by simp)
      (by
        intro t ht
        simp only [List.mem_cons, List.mem_singleton, List.not_mem_nil, or_false] at ht
        rcases ht with rfl | rfl | rfl
        · exact ⟨1704067200000, by decide⟩
        · exact ⟨1704844800000, by decide⟩
        · exact ⟨1704412800000, by decide⟩)).1
  rw [h]
  decide

/-- C7, the behaviour the claim misses: a task whose due date does not parse
is counted as upcoming. -/
theorem invalid_date_is_upcoming :
    renderSummary sampleParse 1704412800000
      [⟨"1", "a", "not a date", 5, none, Score.num 10⟩]
      = SummaryView.counts { overdue := 0, dueToday := 0, upcoming := 1 } := by
  decide

/-- C7 as amended: a task whose due date does not parse adds one to the
upcoming count and nothing to the overdue and due-today counts, wherever it
stands in the sequence. -/
theorem renderSummary_invalid_date (parseDate : String → Option Int) (today : Int)
    (pre post : List AnalyzedTask) (t : AnalyzedTask) (h : parseDate t.due_date = none) :
    renderSummary parseDate today (pre ++ t :: post) = SummaryView.counts
      { overdue := (summaryTally parseDate today (pre ++ post)).overdue,
        dueToday := (summaryTally parseDate today (pre ++ post)).dueToday,
        upcoming := (summaryTally parseDate today (pre ++ post)).upcoming + 1 } := by
  have hlen : ¬ ((pre ++ t :: post).length = 0) := by simp
  simp only [renderSummary, hlen, if_false, summaryTally, foldl_summaryStep]
  simp [List.countP_cons, offsetOf, offsetIs, diffDays, h]
  omega

theorem renderSummary_invalid_date_witness :
    sampleParse "soon" = none ∧
    renderSummary sampleParse 1704412800000
      ([⟨"1", "a", "2024-01-01", 8, none, Score.num 80⟩] ++
        (⟨"2", "b", "soon", 3, none, Score.num 40⟩ : AnalyzedTask) :: [])
      = SummaryView.counts { overdue := 1, dueToday := 0, upcoming := 1 } :=
  ⟨by decide,
   (renderSummary_invalid_date sampleParse 1704412800000
      [⟨"1", "a", "2024-01-01", 8, none, Score.num 80⟩] []
      ⟨"2", "b", "soon", 3, none, Score.num 40⟩ (by decide)).trans (by decide)⟩

/-- Inserting one task anywhere in the sequence adds one to the counter of
the branch that task takes and leaves the other two counters as they are. -/
theorem summaryTally_insert (parseDate : String → Option Int) (today : Int)
    (pre post : List AnalyzedTask) (t : AnalyzedTask) :
    summaryTally parseDate today (pre ++ t :: post) =
      { overdue := (summaryTally parseDate today (pre ++ post)).overdue +
          (if offsetIs (fun k => decide (k < 0)) (offsetOf parseDate today t) then 1 else 0),
        dueToday := (summaryTally parseDate today (pre ++ post)).dueToday +
          (if offsetIs (fun k => decide (k = 0)) (offsetOf parseDate today t) then 1 else 0),
        upcoming := (summaryTally parseDate today (pre ++ post)).upcoming +
          (if (offsetOf parseDate today t).isNone ||
              offsetIs (fun k => decide (0 < k)) (offsetOf parseDate today t) then 1 else 0) } := by
  simp only [summaryTally, foldl_summaryStep, List.countP_append, List.countP_cons,
    Nat.zero_add, Nat.add_assoc]

/-- C10: with instants in integer milliseconds, a task whose due instant `D`
satisfies `D < now ≤ D + 24h` has diffDays = -1 and, wherever it stands in
the sequence, `renderSummary` counts it Overdue (one more overdue, due-today
and upcoming unchanged); a task is counted Due Today (one more due-today, the
other counts unchanged) exactly when `0 ≤ D - now < 24h`. -/
theorem renderSummary_same_day (parseDate : String → Option Int) (today : Int)
    (pre post : List AnalyzedTask) (t : AnalyzedTask) (D : Int)
    (hD : parseDate t.due_date = some D) :
    (D < today → today ≤ D + 86400000 →
      offsetOf parseDate today t = some (-1) ∧
      ⌊((D - today : Int) : ℚ) / (86400000 : ℚ)⌋ = -1 ∧
      renderSummary parseDate today (pre ++ t :: post) = SummaryView.counts
        { overdue := (summaryTally parseDate today (pre ++ post)).overdue + 1,
          dueToday := (summaryTally parseDate today (pre ++ post)).dueToday,
          upcoming := (summaryTally parseDate today (pre ++ post)).upcoming }) ∧
    (renderSummary parseDate today (pre ++ t :: post) = SummaryView.counts
        { overdue := (summaryTally parseDate today (pre ++ post)).overdue,
          dueToday := (summaryTally parseDate today (pre ++ post)).dueToday + 1,
          upcoming := (summaryTally parseDate today (pre ++ post)).upcoming }
      ↔ 0 ≤ D - today ∧ D - today < 86400000) := by
  have hms : msPerDay = 86400000 := by decide
  have hlen : ¬ ((pre ++ t :: post).length = 0) := by simp
  have hoff : offsetOf parseDate today t = some ((D - today) / 86400000) := by
    simp [offsetOf, diffDays, hD, hms]
  have hsum : renderSummary parseDate today (pre ++ t :: post) = SummaryView.counts
      { overdue := (summaryTally parseDate today (pre ++ post)).overdue +
          (if (D - today) / 86400000 < 0 then 1 else 0),
        dueToday := (summaryTally parseDate today (pre ++ post)).dueToday +
          (if (D - today) / 86400000 = 0 then 1 else 0),
        upcoming := (summaryTally parseDate today (pre ++ post)).upcoming +
          (if 0 < (D - today) / 86400000 then 1 else 0) } := by
    simp only [renderSummary, hlen, if_false]
    rw [summaryTally_insert, hoff]
    simp [offsetIs]
  constructor
  · intro h1 h2
    have hq : (D - today) / 86400000 = -1 := by omega
    refine ⟨by rw [hoff, hq], ?_, ?_⟩
    · have hfl := diffDays_eq_floor D today
      have hdd : diffDays (some D) today = some (-1) := by
        simp [diffDays, hms, hq]
      rw [hdd] at hfl
      exact (Option.some.inj hfl).symm
    · rw [hsum, hq]
      simp
  · rw [hsum]
    simp only [SummaryView.counts.injEq, Tally.mk.injEq]
    by_cases h1 : (D - today) / 86400000 < 0
    · have h2 : ¬ ((D - today) / 86400000 = 0) := by omega
      have h3 : ¬ (0 < (D - today) / 86400000) := by omega
      simp only [h1, h2, h3, if_true, if_false]
      constructor
      · rintro ⟨ha, _, _⟩
        omega
      · intro hw
        omega
    · by_cases h2 : (D - today) / 86400000 = 0
      · constructor
        · intro _
          omega
        · intro _
          rw [h2]
          simp
      · have h3 : 0 < (D - today) / 86400000 := by omega
        simp only [h1, h2, h3, if_true, if_false]
        constructor
        · rintro ⟨_, hb, _⟩
          omega
        · intro hw
          omega

theorem renderSummary_same_day_witness :
    sampleParse "2024-01-05" = some 1704412800000 ∧
    renderSummary sampleParse (1704412800000 + 43200000)
      ([⟨"2", "b", "2024-01-10", 3, none, Score.num 40⟩] ++
        (⟨"1", "a", "2024-01-05", 8, none, Score.num 80⟩ : AnalyzedTask) ::
        [⟨"3", "c", "2024-01-01", 5, none, Score.num 60⟩])
        = SummaryView.counts { overdue := 2, dueToday := 0, upcoming := 1 } :=
  ⟨by decide,
   (((renderSummary_same_day sampleParse (1704412800000 + 43200000)
      [⟨"2", "b", "2024-01-10", 3, none, Score.num 40⟩]
      [⟨"3", "c", "2024-01-01", 5, none, Score.num 60⟩]
      ⟨"1", "a", "2024-01-05", 8, none, Score.num 80⟩ 1704412800000 (by decide)).1
      (by decide) (by decide)).2.2).trans (by decide)⟩

/-! ## renderEisenhowerMatrix -/

/-- When every task has a score, the loop appends each task to the list
selected by the two tests, in input order. -/
theorem matrixLoop_eq (parseDate : String → Option Int) (today : Int)
    (items : List AnalyzedTask) (hscore : ∀ t ∈ items, ∃ q, t.score = Score.num q)
    (m : Matrix) :
    matrixLoop parseDate today m items = Except.ok
      { q1 := m.q1 ++ items.filter (fun t => isUrgent parseDate today t && isImportant t),
        q2 := m.q2 ++ items.filter (fun t => isUrgent parseDate today t && !isImportant t),
        q3 := m.q3 ++ items.filter (fun t => !isUrgent parseDate today t && isImportant t),
        q4 := m.q4 ++ items.filter (fun t => !isUrgent parseDate today t && !isImportant t) } := by
  induction items generalizing m with
  | nil => simp [matrixLoop]
  | cons t ts ih =>
    obtain ⟨q, hq⟩ := hscore t (by simp)
    have ih2 := fun m2 => ih (fun u hu => hscore u (by simp [hu])) m2
    cases hu : isUrgent parseDate today t <;> cases hi : isImportant t <;>
      simp [matrixLoop, matrixStep, hq, Score.toFixed, hu, hi, ih2, List.filter_cons]

/-- C5, the behaviour the claim misses: a task with a valid due date and no
score is placed in no list, because `t.score.toFixed(1)` throws before the
`li` is appended. -/
theorem renderEisenhowerMatrix_unscored_throws :
    sampleParse "2024-01-01" = some 1704067200000 ∧
    renderEisenhowerMatrix sampleParse 1704412800000
        [⟨"1", "a", "2024-01-01", 8, none, Score.undefined⟩]
      = Except.error JSError.typeError :=
  ⟨by decide, rfl⟩

/-- A task without a score after tasks that have one: the loop throws at that
task, whatever follows it. -/
theorem renderEisenhowerMatrix_missing_score (parseDate : String → Option Int) (today : Int)
    (pre post : List AnalyzedTask) (t : AnalyzedTask)
    (hpre : ∀ u ∈ pre, ∃ q, u.score = Score.num q) (h : t.score = Score.undefined) :
    renderEisenhowerMatrix parseDate today (pre ++ t :: post) = Except.error JSError.typeError := by
  have hlen : ¬ ((pre ++ t :: post).length = 0) := by simp
  have hloop : ∀ m, matrixLoop parseDate today m (pre ++ t :: post)
      = Except.error JSError.typeError := by
    induction pre with
    | nil =>
      intro m
      simp [matrixLoop, matrixStep, h, Score.toFixed]
    | cons u us ih =>
      intro m
      obtain ⟨q, hq⟩ := hpre u (by simp)
      have ih2 := ih (fun v hv => hpre v (by simp [hv]))
      cases hu : isUrgent parseDate today u <;> cases hi : isImportant u <;>
        simp [matrixLoop, matrixStep, hq, Score.toFixed, hu, hi, ih2]
  simp only [renderEisenhowerMatrix, hlen, if_false, hloop]

/-- C5 as amended: for tasks with valid due dates and a numeric score,
`renderEisenhowerMatrix` puts each task in exactly one list, chosen by
diffDays = floor((due - now) / one day) and the importance: the first list
holds the tasks with diffDays ≤ 2 and importance ≥ 7, the second those with
diffDays ≤ 2 and importance < 7, the third those with diffDays > 2 and
importance ≥ 7, the fourth those with diffDays > 2 and importance < 7; the
four sizes add up to the input size; due in exactly 2 days with importance 7
is in the first list, due in exactly 3 days with importance 7 in the third. -/
theorem renderEisenhowerMatrix_quadrants (parseDate : String → Option Int) (today : Int)
    (items : List AnalyzedTask)
    (hvalid : ∀ t ∈ items, ∃ D, parseDate t.due_date = some D)
    (hscore : ∀ t ∈ items, ∃ q, t.score = Score.num q) :
    ∃ m, renderEisenhowerMatrix parseDate today items = Except.ok m ∧
      m.q1 = items.filter (fun t =>
        offsetIs (fun k => decide (k ≤ 2)) (offsetOf parseDate today t) && decide (7 ≤ t.importance)) ∧
      m.q2 = items.filter (fun t =>
        offsetIs (fun k => decide (k ≤ 2)) (offsetOf parseDate today t) && decide (t.importance < 7)) ∧
      m.q3 = items.filter (fun t =>
        offsetIs (fun k => decide (2 < k)) (offsetOf parseDate today t) && decide (7 ≤ t.importance)) ∧
      m.q4 = items.filter (fun t =>
        offsetIs (fun k => decide (2 < k)) (offsetOf parseDate today t) && decide (t.importance < 7)) ∧
      m.q1.length + m.q2.length + m.q3.length + m.q4.length = items.length ∧
      (∀ t ∈ items, ∀ D, parseDate t.due_date = some D →
        offsetOf parseDate today t = some ⌊((D - today : Int) : ℚ) / (86400000 : ℚ)⌋ ∧
        (t ∈ m.q1 ↔ (D - today) / 86400000 ≤ 2 ∧ 7 ≤ t.importance) ∧
        (t ∈ m.q2 ↔ (D - today) / 86400000 ≤ 2 ∧ t.importance < 7) ∧
        (t ∈ m.q3 ↔ 2 < (D - today) / 86400000 ∧ 7 ≤ t.importance) ∧
        (t ∈ m.q4 ↔ 2 < (D - today) / 86400000 ∧ t.importance < 7)) ∧
      (∀ t ∈ items, parseDate t.due_date = some (today + 2 * 86400000) →
        t.importance = 7 → t ∈ m.q1 ∧ t ∉ m.q2 ∧ t ∉ m.q3 ∧ t ∉ m.q4) ∧
      (∀ t ∈ items, parseDate t.due_date = some (today + 3 * 86400000) →
        t.importance = 7 → t ∈ m.q3 ∧ t ∉ m.q1 ∧ t ∉ m.q2 ∧ t ∉ m.q4) := by
  have hms : msPerDay = 86400000 := by decide
  have hrun : renderEisenhowerMatrix parseDate today items = Except.ok
      { q1 := items.filter (fun t => isUrgent parseDate today t && isImportant t),
        q2 := items.filter (fun t => isUrgent parseDate today t && !isImportant t),
        q3 := items.filter (fun t => !isUrgent parseDate today t && isImportant t),
        q4 := items.filter (fun t => !isUrgent parseDate today t && !isImportant t) } := by
    unfold renderEisenhowerMatrix
    by_cases h0 : items.length = 0
    · have : items = [] := List.length_eq_zero.mp h0
      subst this
      simp
    · rw [if_neg h0, matrixLoop_eq parseDate today items hscore]
      simp
  have hoff : ∀ t ∈ items, ∀ D, parseDate t.due_date = some D →
      offsetOf parseDate today t = some ((D - today) / 86400000) := by
    intro t _ D hD
    simp [offsetOf, diffDays, hD, hms]
  have c1 : items.filter (fun t => isUrgent parseDate today t && isImportant t)
      = items.filter (fun t =>
        offsetIs (fun k => decide (k ≤ 2)) (offsetOf parseDate today t) && decide (7 ≤ t.importance)) := by
    apply List.filter_congr
    intro t ht
    obtain ⟨D, hD⟩ := hvalid t ht
    simp [isUrgent, isImportant, jsLe, offsetIs, offsetOf, diffDays, hD]
  have c2 : items.filter (fun t => isUrgent parseDate today t && !isImportant t)
      = items.filter (fun t =>
        offsetIs (fun k => decide (k ≤ 2)) (offsetOf parseDate today t) && decide (t.importance < 7)) := by
    apply List.filter_congr
    intro t ht
    obtain ⟨D, hD⟩ := hvalid t ht
    simp only [isUrgent, isImportant, jsLe, offsetIs, offsetOf, diffDays, hD]
    by_cases h1 : (D - today) / msPerDay ≤ 2 <;> by_cases h2 : 7 ≤ t.importance <;>
      (simp [h1, h2]; try omega)
  have c3 : items.filter (fun t => !isUrgent parseDate today t && isImportant t)
      = items.filter (fun t =>
        offsetIs (fun k => decide (2 < k)) (offsetOf parseDate today t) && decide (7 ≤ t.importance)) := by
    apply List.filter_congr
    intro t ht
    obtain ⟨D, hD⟩ := hvalid t ht
    simp only [isUrgent, isImportant, jsLe, offsetIs, offsetOf, diffDays, hD]
    by_cases h1 : (D - today) / msPerDay ≤ 2 <;> by_cases h2 : 7 ≤ t.importance <;>
      (simp [h1, h2]; try omega)
  have c4 : items.filter (fun t => !isUrgent parseDate today t && !isImportant t)
      = items.filter (fun t =>
        offsetIs (fun k => decide (2 < k)) (offsetOf parseDate today t) && decide (t.importance < 7)) := by
    apply List.filter_congr
    intro t ht
    obtain ⟨D, hD⟩ := hvalid t ht
    simp only [isUrgent, isImportant, jsLe, offsetIs, offsetOf, diffDays, hD]
    by_cases h1 : (D - today) / msPerDay ≤ 2 <;> by_cases h2 : 7 ≤ t.importance <;>
      (simp [h1, h2]; try omega)
  have hlen : ∀ l : List AnalyzedTask,
      (l.filter (fun t => isUrgent parseDate today t && isImportant t)).length +
      (l.filter (fun t => isUrgent parseDate today t && !isImportant t)).length +
      (l.filter (fun t => !isUrgent parseDate today t && isImportant t)).length +
      (l.filter (fun t => !isUrgent parseDate today t && !isImportant t)).length = l.length := by
    intro l
    induction l with
    | nil => simp
    | cons t ts ih =>
      cases hu : isUrgent parseDate today t <;> cases hi : isImportant t <;>
        simp [List.filter_cons, hu, hi] <;> omega
  have hmem : ∀ t ∈ items, ∀ D, parseDate t.due_date = some D →
      (t ∈ items.filter (fun t =>
          offsetIs (fun k => decide (k ≤ 2)) (offsetOf parseDate today t) && decide (7 ≤ t.importance))
        ↔ (D - today) / 86400000 ≤ 2 ∧ 7 ≤ t.importance) ∧
      (t ∈ items.filter (fun t =>
          offsetIs (fun k => decide (k ≤ 2)) (offsetOf parseDate today t) && decide (t.importance < 7))
        ↔ (D - today) / 86400000 ≤ 2 ∧ t.importance < 7) ∧
      (t ∈ items.filter (fun t =>
          offsetIs (fun k => decide (2 < k)) (offsetOf parseDate today t) && decide (7 ≤ t.importance))
        ↔ 2 < (D - today) / 86400000 ∧ 7 ≤ t.importance) ∧
      (t ∈ items.filter (fun t =>
          offsetIs (fun k => decide (2 < k)) (offsetOf parseDate today t) && decide (t.importance < 7))
        ↔ 2 < (D - today) / 86400000 ∧ t.importance < 7) := by
    intro t ht D hD
    have e := hoff t ht D hD
    simp [List.mem_filter, ht, e, offsetIs]
  refine ⟨_, hrun, c1, c2, c3, c4, ?_, ?_, ?_, ?_⟩
  · exact hlen items
  · intro t ht D hD
    refine ⟨?_, ?_⟩
    · rw [offsetOf, hD, diffDays_eq_floor]
    · simp only [c1, c2, c3, c4]
      exact hmem t ht D hD
  · intro t ht hD himp
    simp only [c1, c2, c3, c4]
    obtain ⟨m1, m2, m3, m4⟩ := hmem t ht _ hD
    have hq : (today + 2 * 86400000 - today) / 86400000 = 2 := by omega
    rw [hq, himp] at m1 m2 m3 m4
    refine ⟨m1.mpr (by decide), fun h => ?_, fun h => ?_, fun h => ?_⟩
    · exact absurd (m2.mp h).2 (by decide)
    · exact absurd (m3.mp h).1 (by decide)
    · exact absurd (m4.mp h).1 (by decide)
  · intro t ht hD himp
    simp only [c1, c2, c3, c4]
    obtain ⟨m1, m2, m3, m4⟩ := hmem t ht _ hD
    have hq : (today + 3 * 86400000 - today) / 86400000 = 3 := by omega
    rw [hq, himp] at m1 m2 m3 m4
    refine ⟨m3.mpr (by decide), fun h => ?_, fun h => ?_, fun h => ?_⟩
    · exact absurd (m1.mp h).1 (by decide)
    · exact absurd (m2.mp h).1 (by decide)
    · exact absurd (m4.mp h).2 (by decide)

theorem renderEisenhowerMatrix_quadrants_witness :
    ∃ m, renderEisenhowerMatrix sampleParse 1704412800000
        [⟨"1", "a", "2024-01-01", 8, none, Score.num 80⟩,
         ⟨"2", "b", "2024-01-10", 3, some ["1"], Score.num 40⟩] = Except.ok m ∧
      m.q1 = [⟨"1", "a", "2024-01-01", 8, none, Score.num 80⟩] ∧
      m.q4 = [⟨"2", "b", "2024-01-10", 3, some ["1"], Score.num 40⟩] := by
  obtain ⟨m, hm, h1, _, _, h4, _⟩ := renderEisenhowerMatrix_quadrants sampleParse 1704412800000
      [⟨"1", "a", "2024-01-01", 8, none, Score.num 80⟩,
       ⟨"2", "b", "2024-01-10", 3, some ["1"], Score.num 40⟩]
      (by
        intro t ht
        simp only [List.mem_cons, List.mem_singleton, List.not_mem_nil, or_false] at ht
        rcases ht with rfl | rfl
        · exact ⟨1704067200000, by decide⟩
        · exact ⟨1704844800000, by decide⟩)
      (by
        intro t ht
        simp only [List.mem_cons, List.mem_singleton, List.not_mem_nil, or_false] at ht
        rcases ht with rfl | rfl
        · exact ⟨80, rfl⟩
        · exact ⟨40, rfl⟩)
  refine ⟨m, hm, ?_, ?_⟩
  · rw [h1]
    decide
  · rw [h4]
    decide

/-! ## renderDependencyGraph: own properties -/

theorem ownGet_ownSet (k k2 : String) (v : List String) (l : List (String × List String)) :
    ownGet k2 (ownSet k v l) = if k2 = k then some v else ownGet k2 l := by
  induction l with
  | nil =>
    by_cases h : k2 = k
    · simp [ownSet, ownGet, h]
    · have h2 : ¬ (k = k2) := fun e => h e.symm
      simp [ownSet, ownGet, h, h2]
  | cons p rest ih =>
    obtain ⟨a, b⟩ := p
    by_cases h1 : a = k
    · by_cases h2 : k2 = k
      · simp [ownSet, ownGet, h1, h2]
      · have h3 : ¬ (k = k2) := fun e => h2 e.symm
        simp [ownSet, ownGet, h1, h2, h3]
    · by_cases h2 : a = k2
      · have h3 : ¬ (k2 = k) := fun e => h1 (h2.trans e)
        simp [ownSet, ownGet, h1, h2, h3]
      · simp [ownSet, ownGet, h1, h2, ih]

theorem mem_keys_iff (o : DepObject) (k : String) :
    k ∈ o.keys ↔ (ownGet k o.own).isSome = true := by
  unfold DepObject.keys
  induction o.own with
  | nil => simp [ownGet]
  | cons p rest ih =>
    obtain ⟨a, b⟩ := p
    by_cases h : a = k
    · simp [ownGet, h]
    · have h2 : ¬ (k = a) := fun e => h e.symm
      simp [ownGet, h, h2, ih]

theorem proto_name_ne (d : String) (hd : d ∉ objectPrototypeNames) : d ≠ "__proto__" := by
  intro h
  apply hd
  rw [h]
  decide

/-- One execution of the inner loop body on a key that is not inherited:
no exception, the prototype is untouched, the key exists afterwards and its
array has the id appended. -/
theorem linkStep_safe (id d : String) (o : DepObject)
    (hp : o.proto = Proto.objectPrototype) (hd : d ∉ objectPrototypeNames) :
    ∃ o2, linkStep id o d = Except.ok o2 ∧ o2.proto = Proto.objectPrototype ∧
      ∀ k, ownGet k o2.own =
        if k = d then some ((ownGet d o.own).getD [] ++ [id]) else ownGet k o.own := by
  have hne := proto_name_ne d hd
  cases hg : ownGet d o.own with
  | some a =>
    refine ⟨{ o with own := ownSet d (a ++ [id]) o.own }, ?_, hp, ?_⟩
    · simp [linkStep, DepObject.get, DepObject.push, hg, Looked.truthy]
    · intro k
      simp [ownGet_ownSet]
  | none =>
    refine ⟨{ o with own := ownSet d [id] (ownSet d [] o.own) }, ?_, hp, ?_⟩
    · simp [linkStep, DepObject.get, DepObject.push, DepObject.assign, hg, hp, hd, hne,
        Looked.truthy, ownGet_ownSet]
    · intro k
      by_cases h : k = d
      · simp [ownGet_ownSet, h]
      · simp [ownGet_ownSet, h]

/-- The inner loop over the dependencies of one task, none of them an
inherited name. -/
theorem linkLoop_safe (id : String) (ds : List String) (o : DepObject)
    (hp : o.proto = Proto.objectPrototype) (hd : ∀ d ∈ ds, d ∉ objectPrototypeNames) :
    ∃ o2, linkLoop id o ds = Except.ok o2 ∧ o2.proto = Proto.objectPrototype ∧
      ∀ k, ownGet k o2.own =
        if k ∈ ds then some ((ownGet k o.own).getD [] ++ List.replicate (ds.count k) id)
        else ownGet k o.own := by
  induction ds generalizing o with
  | nil => exact ⟨o, rfl, hp, fun k => by simp⟩
  | cons d ds ih =>
    obtain ⟨o1, h1, hp1, hg1⟩ := linkStep_safe id d o hp (hd d (by simp))
    obtain ⟨o2, h2, hp2, hg2⟩ := ih o1 hp1 (fun x hx => hd x (by simp [hx]))
    refine ⟨o2, ?_, hp2, ?_⟩
    · simp [linkLoop, h1, h2]
    · intro k
      rw [hg2 k, hg1 k]
      by_cases hkd : k = d
      · subst hkd
        by_cases hk : k ∈ ds
        · simp [hk, List.replicate_succ]
        · simp [hk, List.count_eq_zero_of_not_mem hk]
      · have hdk : ¬ (d = k) := fun e => hkd e.symm
        by_cases hk : k ∈ ds
        · simp [hk, hkd, List.count_cons, hdk]
        · simp [hk, hkd]

theorem declarations_nil_of_unused (items : List AnalyzedTask) (k : String)
    (h : ¬ ∃ t ∈ items, k ∈ depsOf t) : declarations items k = [] := by
  unfold declarations
  induction items with
  | nil => rfl
  | cons t ts ih =>
    have h1 : k ∉ depsOf t := fun hk => h ⟨t, by simp, hk⟩
    have h2 : ¬ ∃ u ∈ ts, k ∈ depsOf u := fun ⟨u, hu, hk⟩ => h ⟨u, by simp [hu], hk⟩
    simp [List.flatMap_cons, List.count_eq_zero_of_not_mem h1, ih h2]

/-- The outer loop over the tasks, no dependency being an inherited name. -/
theorem taskLoop_safe (items : List AnalyzedTask) (o : DepObject)
    (hp : o.proto = Proto.objectPrototype)
    (hd : ∀ t ∈ items, ∀ d ∈ depsOf t, d ∉ objectPrototypeNames) :
    ∃ o2, taskLoop o items = Except.ok o2 ∧ o2.proto = Proto.objectPrototype ∧
      ∀ k, ownGet k o2.own =
        if ∃ t ∈ items, k ∈ depsOf t then some ((ownGet k o.own).getD [] ++ declarations items k)
        else ownGet k o.own := by
  induction items generalizing o with
  | nil => exact ⟨o, rfl, hp, fun k => by simp⟩
  | cons t ts ih =>
    obtain ⟨o1, h1, hp1, hg1⟩ := linkLoop_safe t.id (depsOf t) o hp (hd t (by simp))
    obtain ⟨o2, h2, hp2, hg2⟩ := ih o1 hp1 (fun u hu => hd u (by simp [hu]))
    refine ⟨o2, ?_, hp2, ?_⟩
    · have h1b : linkLoop t.id o (t.dependencies.getD []) = Except.ok o1 := h1
      simp [taskLoop, h1b, h2]
    · intro k
      rw [hg2 k, hg1 k]
      have hdecl : declarations (t :: ts) k
          = List.replicate ((depsOf t).count k) t.id ++ declarations ts k := by
        simp [declarations, List.flatMap_cons]
      by_cases hts : ∃ u ∈ ts, k ∈ depsOf u
      · have hall : ∃ u ∈ t :: ts, k ∈ depsOf u := by
          obtain ⟨u, hu, hk⟩ := hts
          exact ⟨u, by simp [hu], hk⟩
        rw [if_pos hts, if_pos hall, hdecl]
        by_cases hk : k ∈ depsOf t
        · simp [hk]
        · simp [hk, List.count_eq_zero_of_not_mem hk]
      · rw [if_neg hts]
        by_cases hk : k ∈ depsOf t
        · have hall : ∃ u ∈ t :: ts, k ∈ depsOf u := ⟨t, by simp, hk⟩
          rw [if_pos hall, if_pos hk, hdecl, declarations_nil_of_unused ts k hts]
          simp
        · have hall : ¬ ∃ u ∈ t :: ts, k ∈ depsOf u := by
            rintro ⟨u, hu, hku⟩
            rcases List.mem_cons.mp hu with rfl | hu2
            · exact hk hku
            · exact hts ⟨u, hu2, hku⟩
          rw [if_neg hall, if_neg hk]

/-- The first loop: every task id other than `__proto__` becomes an own
property holding an empty array. -/
theorem initLoop_safe (items : List AnalyzedTask) (o : DepObject)
    (hp : o.proto = Proto.objectPrototype) (hid : ∀ t ∈ items, t.id ≠ "__proto__") :
    (items.foldl initStep o).proto = Proto.objectPrototype ∧
      ∀ k, ownGet k (items.foldl initStep o).own =
        if ∃ t ∈ items, t.id = k then some [] else ownGet k o.own := by
  induction items generalizing o with
  | nil => exact ⟨hp, fun k => by simp⟩
  | cons t ts ih =>
    have hne : t.id ≠ "__proto__" := hid t (by simp)
    have hp1 : (initStep o t).proto = Proto.objectPrototype := by
      simp [initStep, DepObject.assign, hne, hp]
    obtain ⟨hp2, hg2⟩ := ih (initStep o t) hp1 (fun u hu => hid u (by simp [hu]))
    refine ⟨hp2, ?_⟩
    intro k
    rw [List.foldl_cons, hg2 k]
    have hown : ownGet k (initStep o t).own = if k = t.id then some [] else ownGet k o.own := by
      simp [initStep, DepObject.assign, hne, ownGet_ownSet]
    rw [hown]
    by_cases hts : ∃ u ∈ ts, u.id = k
    · have hall : ∃ u ∈ t :: ts, u.id = k := by
        obtain ⟨u, hu, hk⟩ := hts
        exact ⟨u, by simp [hu], hk⟩
      rw [if_pos hts, if_pos hall]
    · rw [if_neg hts]
      by_cases hk : k = t.id
      · have hall : ∃ u ∈ t :: ts, u.id = k := ⟨t, by simp, hk.symm⟩
        rw [if_pos hk, if_pos hall]
      · have hall : ¬ ∃ u ∈ t :: ts, u.id = k := by
          rintro ⟨u, hu, hku⟩
          rcases List.mem_cons.mp hu with rfl | hu2
          · exact hk hku.symm
          · exact hts ⟨u, hu2, hku⟩
        rw [if_neg hk, if_neg hall]

/-- The construction of `dependents` when no task is named `__proto__` and no
dependency id is a property name of `Object.prototype`: no exception, the
prototype is untouched, the keys are the task ids and the dependency ids, and
each key holds the ids pushed for it in loop order. -/
theorem buildDependents_safe (items : List AnalyzedTask)
    (hid : ∀ t ∈ items, t.id ≠ "__proto__")
    (hd : ∀ t ∈ items, ∀ d ∈ depsOf t, d ∉ objectPrototypeNames) :
    ∃ o, buildDependents items = Except.ok o ∧ o.proto = Proto.objectPrototype ∧
      (∀ k, k ∈ o.keys ↔ (∃ t ∈ items, t.id = k) ∨ (∃ t ∈ items, k ∈ depsOf t)) ∧
      (∀ k, k ∈ o.keys → ownGet k o.own = some (declarations items k)) ∧
      (∀ k, k ∉ o.keys → ownGet k o.own = none) := by
  obtain ⟨hp0, hg0⟩ := initLoop_safe items ⟨[], Proto.objectPrototype⟩ rfl hid
  obtain ⟨o, ho, hp, hg⟩ := taskLoop_safe items _ hp0 hd
  have hval : ∀ k, ownGet k o.own =
      if (∃ t ∈ items, t.id = k) ∨ (∃ t ∈ items, k ∈ depsOf t)
      then some (declarations items k) else none := by
    intro k
    rw [hg k, hg0 k]
    by_cases h1 : ∃ t ∈ items, k ∈ depsOf t
    · by_cases h2 : ∃ t ∈ items, t.id = k
      · simp [h1, h2]
      · simp [h1, h2, ownGet]
    · by_cases h2 : ∃ t ∈ items, t.id = k
      · simp only [if_neg h1, if_pos h2, h2, true_or, if_true]
        rw [declarations_nil_of_unused items k h1]
      · simp only [if_neg h1, if_neg h2, h1, h2, or_self, if_false]
        rfl
  have hkeys : ∀ k, k ∈ o.keys ↔ (∃ t ∈ items, t.id = k) ∨ (∃ t ∈ items, k ∈ depsOf t) := by
    intro k
    rw [mem_keys_iff, hval k]
    by_cases h : (∃ t ∈ items, t.id = k) ∨ (∃ t ∈ items, k ∈ depsOf t)
    · rw [if_pos h]
      exact ⟨fun _ => h, fun _ => rfl⟩
    · rw [if_neg h]
      exact ⟨fun hh => (by cases hh), fun hh => absurd hh h⟩
  refine ⟨o, ho, hp, hkeys, ?_, ?_⟩
  · intro k hk
    rw [hval k, if_pos ((hkeys k).mp hk)]
  · intro k hk
    rw [hval k, if_neg (fun h => hk ((hkeys k).mpr h))]

theorem dependentsAt_of_objectPrototype (o : DepObject) (d : String)
    (hp : o.proto = Proto.objectPrototype) :
    dependentsAt (Except.ok (some o)) d = ownGet d o.own := by
  cases hg : ownGet d o.own with
  | some a => simp [dependentsAt, DepObject.get, hg]
  | none =>
    by_cases h : d ∈ objectPrototypeNames
    · simp [dependentsAt, DepObject.get, hg, hp, h]
    · simp [dependentsAt, DepObject.get, hg, hp, h]

theorem renderDependencyGraph_of_build (items : List AnalyzedTask) (hne : items ≠ [])
    (o : DepObject) (ho : buildDependents items = Except.ok o) :
    renderDependencyGraph items = Except.ok (some o) := by
  have hlen : ¬ (items.length = 0) := fun h => hne (List.length_eq_zero.mp h)
  simp [renderDependencyGraph, hlen, ho]

theorem mem_declarations (items : List AnalyzedTask) (d x : String) :
    x ∈ declarations items d ↔ ∃ t ∈ items, t.id = x ∧ d ∈ depsOf t := by
  unfold declarations
  simp only [List.mem_flatMap, List.mem_replicate]
  constructor
  · rintro ⟨t, ht, hc, hx⟩
    exact ⟨t, ht, hx.symm, List.count_pos_iff.mp (Nat.pos_of_ne_zero hc)⟩
  · rintro ⟨t, ht, hx, hd⟩
    exact ⟨t, ht, Nat.pos_iff_ne_zero.mp (List.count_pos_iff.mpr hd), hx.symm⟩

/-- With unique task ids, the id of a task is pushed for `d` once per
occurrence of `d` in the dependencies of that task. -/
theorem count_declarations (items : List AnalyzedTask) (d : String)
    (huniq : (items.map (fun t => t.id)).Nodup) (t : AnalyzedTask) (ht : t ∈ items) :
    (declarations items d).count t.id = (depsOf t).count d := by
  induction items with
  | nil => cases ht
  | cons u us ih =>
    have hdecl : declarations (u :: us) d
        = List.replicate ((depsOf u).count d) u.id ++ declarations us d := by
      simp [declarations, List.flatMap_cons]
    rw [List.map_cons, List.nodup_cons] at huniq
    obtain ⟨hu, hus⟩ := huniq
    rw [hdecl, List.count_append, List.count_replicate]
    rcases List.mem_cons.mp ht with rfl | hmem
    · have h0 : (declarations us d).count t.id = 0 := by
        apply List.count_eq_zero_of_not_mem
        intro hx
        obtain ⟨v, hv, hvid, _⟩ := (mem_declarations us d t.id).mp hx
        exact hu (List.mem_map.mpr ⟨v, hv, hvid⟩)
      simp [h0]
    · have hne : ¬ (u.id = t.id) := by
        intro e
        exact hu (List.mem_map.mpr ⟨t, hmem, e.symm⟩)
      have hne2 : (u.id == t.id) = false := by simp [hne]
      rw [hne2, ih hus hmem]
      simp

/-- When no task lists a dependency twice, the ids pushed for `d` are the ids
of the tasks that list `d`, in input order. -/
theorem declarations_eq_filter (items : List AnalyzedTask) (d : String)
    (hnd : ∀ t ∈ items, (depsOf t).Nodup) :
    declarations items d
      = (items.filter (fun t => decide (d ∈ depsOf t))).map (fun t => t.id) := by
  induction items with
  | nil => rfl
  | cons u us ih =>
    have hdecl : declarations (u :: us) d
        = List.replicate ((depsOf u).count d) u.id ++ declarations us d := by
      simp [declarations, List.flatMap_cons]
    rw [hdecl, ih (fun t ht => hnd t (by simp [ht]))]
    by_cases hm : d ∈ depsOf u
    · have h1 : (depsOf u).count d = 1 := List.count_eq_one_of_mem (hnd u (by simp)) hm
      simp [h1, hm, List.filter_cons]
    · simp [hm, List.count_eq_zero_of_not_mem hm, List.filter_cons]

/-! ## renderDependencyGraph: the map on inputs free of inherited names -/

/-- Keys of `dependents`, for a non-empty input in which no task is named
`__proto__` and no dependency id is a property name of `Object.prototype`:
the task ids together with the dependency ids, dangling ones included. -/
theorem dependents_keys_safe (items : List AnalyzedTask) (hne : items ≠ [])
    (hid : ∀ t ∈ items, t.id ≠ "__proto__")
    (hd : ∀ t ∈ items, ∀ d ∈ depsOf t, d ∉ objectPrototypeNames) :
    ∃ o, renderDependencyGraph items = Except.ok (some o) ∧
      ∀ k, k ∈ o.keys ↔ (∃ t ∈ items, t.id = k) ∨ (∃ t ∈ items, k ∈ depsOf t) := by
  obtain ⟨o, ho, _, hkeys, _, _⟩ := buildDependents_safe items hid hd
  exact ⟨o, renderDependencyGraph_of_build items hne o ho, hkeys⟩

/-- Membership in `dependents[d]`, on the same inputs and with unique ids:
the id of a task is in `dependents[d]` exactly when the task lists `d`. -/
theorem dependents_mem_safe (items : List AnalyzedTask) (hne : items ≠ [])
    (huniq : (items.map (fun t => t.id)).Nodup)
    (hid : ∀ t ∈ items, t.id ≠ "__proto__")
    (hd : ∀ t ∈ items, ∀ d ∈ depsOf t, d ∉ objectPrototypeNames)
    (t : AnalyzedTask) (ht : t ∈ items) (d : String) :
    (∃ l, dependentsAt (renderDependencyGraph items) d = some l ∧ t.id ∈ l) ↔ d ∈ depsOf t := by
  obtain ⟨o, ho, hp, hkeys, hval, hnone⟩ := buildDependents_safe items hid hd
  rw [renderDependencyGraph_of_build items hne o ho, dependentsAt_of_objectPrototype o d hp]
  constructor
  · rintro ⟨l, hl, hmem⟩
    by_cases hk : d ∈ o.keys
    · rw [hval d hk] at hl
      have hl2 : declarations items d = l := Option.some.inj hl
      rw [← hl2] at hmem
      have hc : 0 < (declarations items d).count t.id := List.count_pos_iff.mpr hmem
      rw [count_declarations items d huniq t ht] at hc
      exact List.count_pos_iff.mp hc
    · rw [hnone d hk] at hl
      cases hl
  · intro hdt
    have hk : d ∈ o.keys := (hkeys d).mpr (Or.inr ⟨t, ht, hdt⟩)
    exact ⟨declarations items d, hval d hk,
      (mem_declarations items d t.id).mpr ⟨t, ht, rfl, hdt⟩⟩

/-- Order of `dependents[d]`, on the same inputs when no task lists a
dependency twice: the ids of the tasks that list `d`, in input order. -/
theorem dependents_order_safe (items : List AnalyzedTask) (hne : items ≠ [])
    (hid : ∀ t ∈ items, t.id ≠ "__proto__")
    (hd : ∀ t ∈ items, ∀ d ∈ depsOf t, d ∉ objectPrototypeNames)
    (hnd : ∀ t ∈ items, (depsOf t).Nodup) :
    ∃ o, renderDependencyGraph items = Except.ok (some o) ∧
      ∀ d ∈ o.keys, dependentsAt (renderDependencyGraph items) d
        = some ((items.filter (fun t => decide (d ∈ depsOf t))).map (fun t => t.id)) := by
  obtain ⟨o, ho, hp, _, hval, _⟩ := buildDependents_safe items hid hd
  have hr := renderDependencyGraph_of_build items hne o ho
  refine ⟨o, hr, ?_⟩
  intro d hk
  rw [hr, dependentsAt_of_objectPrototype o d hp, hval d hk, declarations_eq_filter items d hnd]

/-! ## renderDependencyGraph: inherited property names -/

/-- C1, failing input: a single task whose only dependency is the dangling id
`constructor`. The read `dependents["constructor"]` finds the function
inherited from `Object.prototype`, so the guard creates no entry and the call
of `push` throws; the dangling id `ghost` in the same place becomes a key. -/
theorem renderDependencyGraph_dangling_constructor :
    renderDependencyGraph [⟨"1", "a", "2024-01-01", 5, some ["constructor"], Score.num 10⟩]
      = Except.error JSError.typeError ∧
    renderDependencyGraph [⟨"1", "a", "2024-01-01", 5, some ["ghost"], Score.num 10⟩]
      = Except.ok (some ⟨[("1", []), ("ghost", ["1"])], Proto.objectPrototype⟩) :=
  ⟨rfl, rfl⟩

/-- C2, failing input: task 2 lists the task 1 and the id `toString`. The
loop throws at `toString`, so no map is produced in which task 2 appears
under each of its dependencies. -/
theorem renderDependencyGraph_dependency_toString :
    renderDependencyGraph
        [⟨"1", "a", "2024-01-01", 8, none, Score.num 80⟩,
         ⟨"2", "b", "2024-01-10", 3, some ["1", "toString"], Score.num 40⟩]
      = Except.error JSError.typeError ∧
    dependentsAt (renderDependencyGraph
        [⟨"1", "a", "2024-01-01", 8, none, Score.num 80⟩,
         ⟨"2", "b", "2024-01-10", 3, some ["1", "toString"], Score.num 40⟩]) "toString"
      = none :=
  ⟨rfl, rfl⟩

/-- C3, failing input: two tasks that both list the id `valueOf`, neither
listing a dependency twice. The loop throws at the first of them, so there is
no list `["1", "2"]` under `valueOf`. -/
theorem renderDependencyGraph_dependency_valueOf :
    renderDependencyGraph
        [⟨"1", "a", "2024-01-01", 8, some ["valueOf"], Score.num 80⟩,
         ⟨"2", "b", "2024-01-10", 3, some ["valueOf"], Score.num 40⟩]
      = Except.error JSError.typeError ∧
    dependentsAt (renderDependencyGraph
        [⟨"1", "a", "2024-01-01", 8, some ["valueOf"], Score.num 80⟩,
         ⟨"2", "b", "2024-01-10", 3, some ["valueOf"], Score.num 40⟩]) "valueOf"
      ≠ some ["1", "2"] :=
  ⟨rfl, by simp [dependentsAt, renderDependencyGraph, buildDependents, taskLoop, linkLoop,
    linkStep, initStep, DepObject.assign, DepObject.get, DepObject.push, ownSet, ownGet,
    Looked.truthy, objectPrototypeNames]⟩

/-- A task named `__proto__` replaces the prototype of `dependents` instead of
creating a key; the ids that list it are pushed onto that prototype. -/
theorem renderDependencyGraph_task_named_proto :
    renderDependencyGraph
        [⟨"__proto__", "a", "2024-01-01", 8, none, Score.num 80⟩,
         ⟨"2", "b", "2024-01-10", 3, some ["__proto__"], Score.num 40⟩]
      = Except.ok (some ⟨[("2", [])], Proto.array ["2"]⟩) :=
  rfl

/-! ## renderDependencyGraph: repeated dependencies -/

/-- C9, the behaviour the claim misses: a task that lists the dependency `1`
twice is pushed twice, so `dependents["1"]` is `["2", "2"]`. -/
theorem renderDependencyGraph_repeated_dependency :
    dependentsAt (renderDependencyGraph
        [⟨"1", "a", "2024-01-01", 8, none, Score.num 80⟩,
         ⟨"2", "b", "2024-01-10", 3, some ["1", "1"], Score.num 40⟩]) "1"
      = some ["2", "2"] ∧
    ¬ (["2", "2"] : List String).Nodup :=
  ⟨rfl, by decide⟩

/-- C9 as amended: for a non-empty input with unique ids, no task named
`__proto__` and no dependency id that is a property name of
`Object.prototype`, every key `d` holds an array in which the id of each task
occurs as many times as the task lists `d`; the array has no repetition when
no task lists `d` more than once. -/
theorem dependents_multiplicity (items : List AnalyzedTask) (hne : items ≠ [])
    (huniq : (items.map (fun t => t.id)).Nodup)
    (hid : ∀ t ∈ items, t.id ≠ "__proto__")
    (hd : ∀ t ∈ items, ∀ d ∈ depsOf t, d ∉ objectPrototypeNames) :
    ∃ o, renderDependencyGraph items = Except.ok (some o) ∧
      ∀ d ∈ o.keys, ∃ l, dependentsAt (renderDependencyGraph items) d = some l ∧
        (∀ t ∈ items, l.count t.id = (depsOf t).count d) ∧
        ((∀ t ∈ items, (depsOf t).count d ≤ 1) → l.Nodup) := by
  obtain ⟨o, ho, hp, _, hval, _⟩ := buildDependents_safe items hid hd
  have hr := renderDependencyGraph_of_build items hne o ho
  refine ⟨o, hr, ?_⟩
  intro d hk
  refine ⟨declarations items d, ?_, ?_, ?_⟩
  · rw [hr, dependentsAt_of_objectPrototype o d hp, hval d hk]
  · intro t ht
    exact count_declarations items d huniq t ht
  · intro hle
    rw [List.nodup_iff_count_le_one]
    intro x
    by_cases hx : x ∈ declarations items d
    · obtain ⟨t, ht, hxt, _⟩ := (mem_declarations items d x).mp hx
      rw [← hxt, count_declarations items d huniq t ht]
      exact hle t ht
    · rw [List.count_eq_zero_of_not_mem hx]
      exact Nat.zero_le 1

theorem dependents_multiplicity_witness :
    ∃ o, renderDependencyGraph
        [⟨"1", "a", "2024-01-01", 8, none, Score.num 80⟩,
         ⟨"2", "b", "2024-01-10", 3, some ["1", "ghost", "1"], Score.num 40⟩]
        = Except.ok (some o) ∧
      ∀ d ∈ o.keys, ∃ l, dependentsAt (renderDependencyGraph
        [⟨"1", "a", "2024-01-01", 8, none, Score.num 80⟩,
         ⟨"2", "b", "2024-01-10", 3, some ["1", "ghost", "1"], Score.num 40⟩]) d = some l ∧
        (∀ t ∈ ([⟨"1", "a", "2024-01-01", 8, none, Score.num 80⟩,
            ⟨"2", "b", "2024-01-10", 3, some ["1", "ghost", "1"], Score.num 40⟩] :
            List AnalyzedTask),
          l.count t.id = (depsOf t).count d) ∧
        ((∀ t ∈ ([⟨"1", "a", "2024-01-01", 8, none, Score.num 80⟩,
            ⟨"2", "b", "2024-01-10", 3, some ["1", "ghost", "1"], Score.num 40⟩] :
            List AnalyzedTask),
          (depsOf t).count d ≤ 1) → l.Nodup) :=
  dependents_multiplicity
    [⟨"1", "a", "2024-01-01", 8, none, Score.num 80⟩,
     ⟨"2", "b", "2024-01-10", 3, some ["1", "ghost", "1"], Score.num 40⟩]
    (by simp)
    (by decide)
    (by
      intro t ht
      simp only [List.mem_cons, List.mem_singleton, List.not_mem_nil, or_false] at ht
      rcases ht with rfl | rfl <;> decide)
    (by
      intro t ht
      simp only [List.mem_cons, List.mem_singleton, List.not_mem_nil, or_false] at ht
      rcases ht with rfl | rfl <;> simp [depsOf, objectPrototypeNames])

end TaskAnalyzer
